import Mathlib

/-!
Shallow embedding of the aggregation-and-normalization pipeline of
`src/telegram_news_bot.js` (a Telegram news bot).

JavaScript values reaching the pipeline (output of the XML parser
`fast-xml-parser` and everything derived from it) are modelled by the
inductive type `JSValue`: JS numbers produced by the parser are machine
integers here (the parser only outputs numbers for digit strings, so the
`Int` model is exact for every value the pipeline sees; there is no NaN
value among parser outputs), objects are association lists with distinct
keys, and property access, optional chaining, truthiness and `||` follow
the ECMAScript rules for those values.

Fallible JS code (method calls on values that may lack the method,
property reads on possibly nullish bases, HTTP requests) is modelled with
`Except String`.
-/

namespace NewsBot

/-- A JavaScript value as produced by the XML parser and manipulated by
the pipeline. -/
inductive JSValue where
  | undefined : JSValue
  | null : JSValue
  | bool : Bool → JSValue
  | num : Int → JSValue
  | str : String → JSValue
  | obj : List (String × JSValue) → JSValue
  | arr : List JSValue → JSValue

/-- ECMAScript ToBoolean on the modelled values: `undefined`, `null`,
`false`, `0`, and the empty string are falsy; objects and arrays are
always truthy. (NaN, also falsy in JS, does not occur: the parser only
produces integer numbers.) -/
def JSValue.truthy : JSValue → Bool
  | .undefined => false
  | .null => false
  | .bool b => b
  | .num n => n != 0
  | .str s => !s.isEmpty
  | .obj _ => true
  | .arr _ => true

/-- `undefined` and `null`: property access on these throws; optional
chaining short-circuits on them. -/
def JSValue.isNullish : JSValue → Bool
  | .undefined => true
  | .null => true
  | _ => false

/-- Property access `v.k` on a value already known not to be nullish:
a lookup on objects (parser objects have distinct keys), `undefined` on
every other value (primitives have none of the keys used here; arrays
have none of the string keys used here). -/
def JSValue.prop (v : JSValue) (k : String) : JSValue :=
  match v with
  | .obj fs =>
    match fs.find? (fun p => p.1 == k) with
    | some p => p.2
    | none => .undefined
  | _ => .undefined

/-- Optional-chaining access `v?.[k]` / `v?.k`: `undefined` when the base
is nullish, otherwise plain property access. Never throws. -/
def JSValue.optProp (v : JSValue) (k : String) : JSValue :=
  if v.isNullish then .undefined else v.prop k

/-- JS `a || b`: the left operand when truthy, otherwise the right. -/
def jsOr (a b : JSValue) : JSValue :=
  if a.truthy then a else b

/-- One pass of `String.prototype.replace(/<[^>]*>/g, '')` over a
character list. The second argument is the state of the scan: `none`
outside a candidate match, `some pend` (reversed pending characters)
after an unconsumed `<` while looking for the first `>` that closes the
match. A `<` with no later `>` matches nothing, so its pending characters
are emitted literally at the end of the input. This is exactly the
leftmost-match semantics of the regex: a match starts at a `<` and ends
at the first following `>`. -/
def stripTagsGo : List Char → Option (List Char) → List Char
  | [], none => []
  | [], some pend => pend.reverse
  | c :: rest, none =>
    if c = '<' then stripTagsGo rest (some [c]) else c :: stripTagsGo rest none
  | c :: rest, some pend =>
    if c = '>' then stripTagsGo rest none else stripTagsGo rest (some (c :: pend))

/-- `s.replace(/<[^>]*>/g, '')` (line 69 of the source). -/
def stripTags (s : String) : String :=
  ⟨stripTagsGo s.data none⟩

/-- `s.substring(0, n)` for the strings of this pipeline (the first `n`
characters). -/
def jsSubstring (s : String) (n : Nat) : String :=
  ⟨s.data.take n⟩

/-- Whether a character list contains a `<...>` tag span, i.e. a `<`
followed (anywhere later) by a `>`: such a pair yields a regex match
`<[^>]*>` ending at the first `>` after the `<`, and conversely every
match is such a pair. -/
def hasTag : List Char → Bool
  | [] => false
  | c :: rest => (c == '<' && rest.any (fun d => d == '>')) || hasTag rest

/-- `hasTag` on a string. -/
def hasTagStr (s : String) : Bool :=
  hasTag s.data

/-- The canonical record built by the normalizer (lines 64-71). The
fields hold arbitrary JS values: the source does not coerce them to
strings. -/
structure NewsItem where
  title : JSValue
  link : JSValue
  pubDate : JSValue
  content : JSValue
  contentSnippet : JSValue
  creator : JSValue

/-- `item.title || item.title?.['#text'] || 'No title'` (line 65). -/
def resolvedTitle (item : JSValue) : JSValue :=
  jsOr (jsOr (item.prop "title") ((item.prop "title").optProp "#text")) (.str "No title")

/-- `item.link || item.link?.['@_href'] || ''` (line 66). -/
def resolvedLink (item : JSValue) : JSValue :=
  jsOr (jsOr (item.prop "link") ((item.prop "link").optProp "@_href")) (.str "")

/-- `item.pubDate || item.published || new Date().toISOString()`
(line 67); `now` is the ISO string of the current time. -/
def resolvedPubDate (now : String) (item : JSValue) : JSValue :=
  jsOr (jsOr (item.prop "pubDate") (item.prop "published")) (.str now)

/-- `item.description || item.summary || ''` (lines 68 and 69). -/
def resolvedContent (item : JSValue) : JSValue :=
  jsOr (jsOr (item.prop "description") (item.prop "summary")) (.str "")

/-- `item['dc:creator'] || item.author?.name || 'Unknown'` (line 70). -/
def resolvedCreator (item : JSValue) : JSValue :=
  jsOr (jsOr (item.prop "dc:creator") ((item.prop "author").optProp "name")) (.str "Unknown")

/-- `v.replace(/<[^>]*>/g, '').substring(0, 120)` (line 69): only
strings have a `replace` method, so a truthy non-string resolved content
(a number or a nested object from the XML parser) makes the call throw a
TypeError. -/
def snippetOf : JSValue → Except String JSValue
  | .str s => .ok (.str (jsSubstring (stripTags s) 120))
  | _ => .error "TypeError: replace is not a function"

/-- The normalizer body (lines 64-71): builds one `NewsItem` from one raw
item/entry node. Property access on a nullish node throws; the snippet
computation throws when the resolved content is a truthy non-string;
everything else is total. -/
def normalizeItem (now : String) (item : JSValue) : Except String NewsItem :=
  if item.isNullish then
    .error "TypeError: cannot read properties of nullish item"
  else
    match snippetOf (resolvedContent item) with
    | .error e => .error e
    | .ok snip =>
      .ok { title := resolvedTitle item
            link := resolvedLink item
            pubDate := resolvedPubDate now item
            content := resolvedContent item
            contentSnippet := snip
            creator := resolvedCreator item }

/-- `Array.isArray(v) ? v : [v]` (lines 54-56 and 58-60): coerce a
single scalar item/entry into a one-element sequence. -/
def coerceToArray (v : JSValue) : List JSValue :=
  match v with
  | .arr xs => xs
  | _ => [v]

/-- `parsed.rss?.channel?.item` (line 53). -/
def rssChannelItem (parsed : JSValue) : JSValue :=
  ((parsed.prop "rss").optProp "channel").optProp "item"

/-- `parsed.feed?.entry` (line 57). -/
def feedEntry (parsed : JSValue) : JSValue :=
  (parsed.prop "feed").optProp "entry"

/-- Dialect detection and array coercion (lines 52-61): the item dialect
(`rss.channel.item`) is checked first; the entry dialect (`feed.entry`)
only when the former is falsy; neither shape yields the empty list. -/
def extractItems (parsed : JSValue) : List JSValue :=
  if (rssChannelItem parsed).truthy then coerceToArray (rssChannelItem parsed)
  else if (feedEntry parsed).truthy then coerceToArray (feedEntry parsed)
  else []

/-- `items.map(item => ...)` with a possibly-throwing body: JS `map`
applies the body left to right and the first thrown exception aborts the
whole map (and, in the source, the whole feed via the surrounding
try/catch). -/
def mapExcept (f : α → Except ε β) : List α → Except ε (List β)
  | [] => .ok []
  | a :: l =>
    match f a with
    | .error e => .error e
    | .ok b =>
      match mapExcept f l with
      | .error e => .error e
      | .ok bs => .ok (b :: bs)

/-- The observable outcome of the fetch-and-parse prefix of one feed
iteration (lines 49-50). The network and the XML grammar are outside the
embedding, so a source is represented by what those two stages produced:
a rejection of `httpsRequest`, a parser throw, or a parsed document. -/
inductive FeedOutcome where
  | fetchError : String → FeedOutcome
  | parseError : String → FeedOutcome
  | parsed : JSValue → FeedOutcome

/-- Whether the source failed before normalization (fetch or parse
stage). -/
def FeedOutcome.isFailure : FeedOutcome → Bool
  | .fetchError _ => true
  | .parseError _ => true
  | .parsed _ => false

/-- One iteration of the per-feed loop (lines 47-77): a throw anywhere in
the try block is caught, logged, and the source contributes zero items;
otherwise the feed contributes its normalized items. A throw inside the
normalization map also lands in the catch, so such a feed contributes
zero items as well. -/
def processFeed (now : String) : FeedOutcome → List NewsItem
  | .fetchError _ => []
  | .parseError _ => []
  | .parsed doc =>
    match mapExcept (normalizeItem now) (extractItems doc) with
    | .ok ns => ns
    | .error _ => []

/-- `new Date(v)` reduced to a timestamp: `none` is an Invalid Date
(NaN time value). A string is parsed by the environment-supplied
`dateVal` (the ECMAScript/ICU date grammar is a platform primitive, kept
abstract: `none` for unparseable strings); a number is its own time
value; `null` and booleans coerce to 0 and 0/1; `undefined` gives NaN.
(The object/array-to-primitive coercion path is collapsed to Invalid
Date; the pipeline only ever sorts on string or number `pubDate`
fields.) -/
def dateOf (dateVal : String → Option Int) : JSValue → Option Int
  | .str s => dateVal s
  | .num n => some n
  | .null => some 0
  | .bool b => some (if b then 1 else 0)
  | .undefined => none
  | .obj _ => none
  | .arr _ => none

/-- The sort comparator (line 81) as a strict precedence test:
`a` must be placed before `b` exactly when
`new Date(b.pubDate) - new Date(a.pubDate) < 0`, i.e. when both dates
are valid and `b`'s is strictly smaller. When either date is invalid the
comparator yields NaN, which the sort treats as "no required order"
(NaN < 0 and NaN > 0 are both false). -/
def sortLt (dateVal : String → Option Int) (a b : NewsItem) : Bool :=
  match dateOf dateVal b.pubDate, dateOf dateVal a.pubDate with
  | some db, some da => decide (db < da)
  | _, _ => false

/-- Stable insertion step: `a` is placed before the first element it must
strictly precede, and after every element it compares equal to. -/
def insertItem (dateVal : String → Option Int) (a : NewsItem) :
    List NewsItem → List NewsItem
  | [] => [a]
  | b :: bs =>
    if sortLt dateVal a b then a :: b :: bs else b :: insertItem dateVal a bs

/-- `allItems.sort((a, b) => new Date(b.pubDate) - new Date(a.pubDate))`
(line 81), modelled as a stable sort driven by the comparator: for a
consistent comparator (all dates valid) every ECMAScript-conforming sort
returns exactly this list; for an inconsistent comparator (some NaN
results) ECMAScript leaves the order implementation-defined, and this
stable model reflects treating a NaN comparison as equality, which is
what the engine's stable sort does on each comparison it performs. -/
def sortItems (dateVal : String → Option Int) (l : List NewsItem) : List NewsItem :=
  l.foldl (fun acc x => insertItem dateVal x acc) []

/-- `fetchRSSFeeds` (lines 38-82) over the per-source outcomes: each
source contributes its items (zero on failure), the contributions are
concatenated in source order, and the result is sorted by the date
comparator. Total: the per-feed try/catch absorbs every per-source
throw, so aggregation itself never raises. -/
def fetchRSSFeeds (now : String) (dateVal : String → Option Int)
    (outcomes : List FeedOutcome) : List NewsItem :=
  sortItems dateVal ((outcomes.map (processFeed now)).flatten)

/-- One HTTP response as seen by the `end` handler: status code plus the
concatenation of the data chunks. -/
structure HttpResponse where
  statusCode : Nat
  body : String

/-- What the transport did for one request: delivered a response, or
emitted an `error` event. -/
inductive TransportEvent where
  | response : HttpResponse → TransportEvent
  | failure : String → TransportEvent

/-- `httpsRequest` (lines 18-35): resolves with the body on a 2xx status,
rejects with `HTTP <status>: <body>` otherwise, and rejects with the
transport error on an `error` event. -/
def httpsRequest : TransportEvent → Except String String
  | .failure m => .error m
  | .response r =>
    if 200 ≤ r.statusCode ∧ r.statusCode < 300 then .ok r.body
    else .error ("HTTP " ++ toString r.statusCode ++ ": " ++ r.body)

/-- How one run of `main` ended: normal return, or
`process.exit(1)` from the catch block. -/
inductive RunOutcome where
  | success : RunOutcome
  | fatalExit : RunOutcome
deriving DecidableEq

/-- Which collaborators a run of `main` invoked, and how it ended. -/
structure RunTrace where
  aiCalled : Bool
  telegramCalled : Bool
  result : RunOutcome
deriving DecidableEq

/-- The orchestrator `main` (lines 180-208) after aggregation: when the
aggregated list is empty it returns at once (lines 189-192) without
calling OpenAI or Telegram; otherwise it calls OpenAI on the first 20
items, then Telegram on the digest, and a rejection of either lands in
the catch block, which exits the process with a non-zero status. -/
def mainRun (news : List NewsItem) (ai : List NewsItem → Except String String)
    (tg : String → Except String String) : RunTrace :=
  if news.length = 0 then ⟨false, false, .success⟩
  else
    match ai (news.take 20) with
    | .error _ => ⟨true, false, .fatalExit⟩
    | .ok msg =>
      match tg msg with
      | .error _ => ⟨true, true, .fatalExit⟩
      | .ok _ => ⟨true, true, .success⟩

/-- Whether a value is a JS string. -/
def JSValue.isStr : JSValue → Bool
  | .str _ => true
  | _ => false

/-- Every field of the record is defined and non-null. -/
def NewsItem.allFieldsDefined (n : NewsItem) : Bool :=
  !n.title.isNullish && !n.link.isNullish && !n.pubDate.isNullish &&
  !n.content.isNullish && !n.contentSnippet.isNullish && !n.creator.isNullish

/-- Every field of the record is a JS string. -/
def NewsItem.allFieldsStr (n : NewsItem) : Bool :=
  n.title.isStr && n.link.isStr && n.pubDate.isStr &&
  n.content.isStr && n.contentSnippet.isStr && n.creator.isStr

/-- JS `x >= y` on two time values: false whenever either side is NaN
(an invalid date), otherwise the numeric comparison. -/
def jsGe : Option Int → Option Int → Bool
  | some x, some y => decide (y ≤ x)
  | _, _ => false

/-- The ordering the specification asserts of the aggregated feed: every
adjacent pair satisfies `timestamp(a) >= timestamp(b)` under the JS
comparison (so a pair involving an invalid date never satisfies it). -/
def sortedByDateDesc (dateVal : String → Option Int) : List NewsItem → Bool
  | a :: b :: r =>
    jsGe (dateOf dateVal a.pubDate) (dateOf dateVal b.pubDate) &&
      sortedByDateDesc dateVal (b :: r)
  | _ => true

/-- A concrete date parser agreeing with `new Date` on the strings used
in the concrete scenarios below: the ISO date parses to its epoch
milliseconds, every other string used is not a date and parses to NaN
(`none`). -/
def dvDemo : String → Option Int := fun s =>
  if s == "2024-01-02T00:00:00Z" then some 1704153600000 else none

/-- `"x".repeat(200)`. -/
def xs200 : String := ⟨List.replicate 200 'x'⟩

/-- `"x".repeat(118)`. -/
def xs118 : String := ⟨List.replicate 118 'x'⟩

/-- `"<b>Hi</b>" + "x".repeat(200)`, the scenario description. -/
def descHi : String := "<b>Hi</b>" ++ xs200

/-- The scenario item carrying `descHi` as its description. -/
def itemHi : JSValue := .obj [("description", .str descHi)]

/-- The record the normalizer produces for `itemHi`. -/
def newsHi : NewsItem :=
  { title := .str "No title", link := .str "", pubDate := .str "T",
    content := .str descHi, contentSnippet := .str ("Hi" ++ xs118),
    creator := .str "Unknown" }

/-- A digest collaborator that always succeeds. -/
def aiStub : List NewsItem → Except String String := fun _ => .ok "digest"

/-- A delivery collaborator that always succeeds. -/
def tgStub : String → Except String String := fun _ => .ok "sent"

/-- An entry-dialect document whose first entry has an unparseable
`pubDate` and whose second has a valid later one: input order is
(invalid, valid). -/
def docUnsorted : JSValue :=
  .obj [("rss", .obj [("channel", .obj [("item",
    .arr [.obj [("pubDate", .str "not a date")],
          .obj [("pubDate", .str "2024-01-02T00:00:00Z")]])])])]

/-- A one-item document whose item has a valid date. -/
def docSingleDated : JSValue :=
  .obj [("rss", .obj [("channel", .obj [("item",
    .arr [.obj [("pubDate", .str "2024-01-02T00:00:00Z")]])])])]

/-- An item-dialect document whose `item` node is a single scalar. -/
def docScalarItem : JSValue :=
  .obj [("rss", .obj [("channel", .obj [("item", .str "solo")])])]

/-- An item-dialect document with two items. -/
def docTwoItems : JSValue :=
  .obj [("rss", .obj [("channel", .obj [("item",
    .arr [.obj [("title", .str "A")], .obj [("title", .str "B")]])])])]

/-- The normalization of the first item of `docTwoItems`. -/
def newsA : NewsItem :=
  { title := .str "A", link := .str "", pubDate := .str "T",
    content := .str "", contentSnippet := .str "", creator := .str "Unknown" }

/-- The normalization of the second item of `docTwoItems`. -/
def newsB : NewsItem :=
  { title := .str "B", link := .str "", pubDate := .str "T",
    content := .str "", contentSnippet := .str "", creator := .str "Unknown" }

/-- A document exposing both recognized shapes at once. -/
def docBothShapes : JSValue :=
  .obj [("rss", .obj [("channel", .obj [("item", .str "I")])]),
        ("feed", .obj [("entry", .str "E")])]

/-! ### Helper lemmas -/

theorem truthy_isNullish_false {v : JSValue} (h : v.truthy = true) :
    v.isNullish = false := by
  cases v <;> simp_all [JSValue.truthy, JSValue.isNullish]

theorem jsOr_isNullish_false (a : JSValue) {b : JSValue}
    (hb : b.isNullish = false) : (jsOr a b).isNullish = false := by
  unfold jsOr
  by_cases h : a.truthy = true
  · simp [h, truthy_isNullish_false h]
  · rw [Bool.not_eq_true] at h
    simp [h, hb]

theorem isStr_exists {v : JSValue} (h : v.isStr = true) : ∃ s, v = .str s := by
  cases v <;> simp_all [JSValue.isStr]

theorem snippetOf_ok {v w : JSValue} (h : snippetOf v = .ok w) :
    ∃ s, v = .str s ∧ w = .str (jsSubstring (stripTags s) 120) := by
  cases v with
  | str s => exact ⟨s, rfl, by simpa [snippetOf] using h.symm⟩
  | undefined => simp [snippetOf] at h
  | null => simp [snippetOf] at h
  | bool b => simp [snippetOf] at h
  | num n => simp [snippetOf] at h
  | obj fs => simp [snippetOf] at h
  | arr xs => simp [snippetOf] at h

theorem normalizeItem_ok_elim {now : String} {item : JSValue} {n : NewsItem}
    (h : normalizeItem now item = .ok n) :
    item.isNullish = false ∧ ∃ s, resolvedContent item = .str s ∧
      n = { title := resolvedTitle item, link := resolvedLink item,
            pubDate := resolvedPubDate now item, content := .str s,
            contentSnippet := .str (jsSubstring (stripTags s) 120),
            creator := resolvedCreator item } := by
  unfold normalizeItem at h
  split at h
  · cases h
  · rename_i hnull
    rw [Bool.not_eq_true] at hnull
    refine ⟨hnull, ?_⟩
    cases hsnip : snippetOf (resolvedContent item) with
    | error e => rw [hsnip] at h; cases h
    | ok w =>
      rw [hsnip] at h
      obtain ⟨s, hs, hw⟩ := snippetOf_ok hsnip
      refine ⟨s, hs, ?_⟩
      simp only [Except.ok.injEq] at h
      rw [← h, hs, hw]

theorem mapExcept_ok_length {f : α → Except ε β} :
    ∀ {l : List α} {ns : List β}, mapExcept f l = .ok ns → ns.length = l.length := by
  intro l
  induction l with
  | nil =>
    intro ns h
    simp only [mapExcept, Except.ok.injEq] at h
    simp [← h]
  | cons a t ih =>
    intro ns h
    simp only [mapExcept] at h
    cases hfa : f a with
    | error e => rw [hfa] at h; cases h
    | ok b =>
      rw [hfa] at h
      cases hmt : mapExcept f t with
      | error e => rw [hmt] at h; cases h
      | ok bs =>
        rw [hmt] at h
        simp only [Except.ok.injEq] at h
        simp [← h, ih hmt]

theorem flatten_map_filter {α β : Type} (p : α → Bool) (f : α → List β)
    (hf : ∀ o, p o = false → f o = []) :
    ∀ l : List α, ((l.filter p).map f).flatten = (l.map f).flatten := by
  intro l
  induction l with
  | nil => rfl
  | cons a t ih =>
    by_cases hp : p a = true
    · simp [List.filter_cons, hp, ih]
    · rw [Bool.not_eq_true] at hp
      simp [List.filter_cons, hp, hf a hp, ih]

theorem sortLt_char (dv : String → Option Int) (a b : NewsItem) :
    sortLt dv a b = true ↔
      ∃ db da, dateOf dv b.pubDate = some db ∧ dateOf dv a.pubDate = some da ∧
        db < da := by
  unfold sortLt
  rcases hb : dateOf dv b.pubDate with _ | db <;>
    rcases ha : dateOf dv a.pubDate with _ | da <;> simp

theorem sortLt_asymm {dv : String → Option Int} {a b : NewsItem}
    (h : sortLt dv a b = true) : sortLt dv b a = false := by
  obtain ⟨db, da, hb, ha, hlt⟩ := (sortLt_char dv a b).mp h
  by_contra hc
  rw [Bool.not_eq_false] at hc
  obtain ⟨dA, dB, hA, hB, hlt2⟩ := (sortLt_char dv b a).mp hc
  have e1 : dA = da := Option.some.inj (hA.symm.trans ha)
  have e2 : dB = db := Option.some.inj (hB.symm.trans hb)
  omega

theorem sortLt_trans {dv : String → Option Int} {x a b : NewsItem}
    (hab : sortLt dv a b = true) (hxa : sortLt dv x a = true) :
    sortLt dv x b = true := by
  obtain ⟨db, da, hb, ha, h1⟩ := (sortLt_char dv a b).mp hab
  obtain ⟨da2, dx, ha2, hx, h2⟩ := (sortLt_char dv x a).mp hxa
  have e : da2 = da := Option.some.inj (ha2.symm.trans ha)
  exact (sortLt_char dv x b).mpr ⟨db, dx, hb, hx, by omega⟩

theorem mem_insertItem {dv : String → Option Int} {a x : NewsItem} :
    ∀ {l : List NewsItem}, x ∈ insertItem dv a l ↔ x = a ∨ x ∈ l := by
  intro l
  induction l with
  | nil => simp [insertItem]
  | cons b bs ih =>
    unfold insertItem
    by_cases h : sortLt dv a b = true
    · simp [h, List.mem_cons]
    · simp [h, List.mem_cons, ih]
      tauto

theorem pairwise_insertItem {dv : String → Option Int} {a : NewsItem} :
    ∀ {l : List NewsItem}, l.Pairwise (fun x y => sortLt dv y x = false) →
      (insertItem dv a l).Pairwise (fun x y => sortLt dv y x = false) := by
  intro l
  induction l with
  | nil => intro _; simp [insertItem]
  | cons b bs ih =>
    intro h
    rw [List.pairwise_cons] at h
    obtain ⟨hb, hbs⟩ := h
    unfold insertItem
    by_cases hab : sortLt dv a b = true
    · rw [if_pos hab, List.pairwise_cons]
      refine ⟨?_, ?_⟩
      · intro y hy
        rcases List.mem_cons.mp hy with rfl | hy2
        · exact sortLt_asymm hab
        · by_contra hc
          rw [Bool.not_eq_false] at hc
          have := sortLt_trans hab hc
          simp [hb y hy2] at this
      · rw [List.pairwise_cons]
        exact ⟨hb, hbs⟩
    · rw [if_neg hab, List.pairwise_cons]
      rw [Bool.not_eq_true] at hab
      refine ⟨?_, ih hbs⟩
      intro y hy
      rcases mem_insertItem.mp hy with rfl | hy2
      · exact hab
      · exact hb y hy2

theorem pairwise_sortItems_aux (dv : String → Option Int) :
    ∀ (l acc : List NewsItem),
      acc.Pairwise (fun x y => sortLt dv y x = false) →
      (l.foldl (fun acc x => insertItem dv x acc) acc).Pairwise
        (fun x y => sortLt dv y x = false) := by
  intro l
  induction l with
  | nil => intro acc hacc; simpa using hacc
  | cons a t ih =>
    intro acc hacc
    simp only [List.foldl_cons]
    exact ih _ (pairwise_insertItem hacc)

theorem pairwise_sortItems (dv : String → Option Int) (l : List NewsItem) :
    (sortItems dv l).Pairwise (fun x y => sortLt dv y x = false) :=
  pairwise_sortItems_aux dv l [] (by simp)

theorem mem_sortItems_aux (dv : String → Option Int) (x : NewsItem) :
    ∀ (l acc : List NewsItem),
      (x ∈ l.foldl (fun acc x => insertItem dv x acc) acc ↔ x ∈ acc ∨ x ∈ l) := by
  intro l
  induction l with
  | nil => intro acc; simp
  | cons a t ih =>
    intro acc
    simp only [List.foldl_cons]
    rw [ih (insertItem dv a acc)]
    rw [mem_insertItem, List.mem_cons]
    tauto

theorem mem_sortItems {dv : String → Option Int} {x : NewsItem}
    {l : List NewsItem} : x ∈ sortItems dv l ↔ x ∈ l := by
  unfold sortItems
  rw [mem_sortItems_aux dv x l []]
  simp

theorem sortedByDateDesc_of_pairwise (dv : String → Option Int) :
    ∀ l : List NewsItem, (∀ x ∈ l, (dateOf dv x.pubDate).isSome = true) →
      l.Pairwise (fun x y => sortLt dv y x = false) →
      sortedByDateDesc dv l = true := by
  intro l
  induction l with
  | nil => intro _ _; rfl
  | cons a t ih =>
    intro hsome hpw
    cases t with
    | nil => rfl
    | cons b r =>
      rw [List.pairwise_cons] at hpw
      obtain ⟨ha, hrest⟩ := hpw
      have hba : sortLt dv b a = false := ha b (by simp)
      obtain ⟨da, hda⟩ := Option.isSome_iff_exists.mp (hsome a (by simp))
      obtain ⟨db, hdb⟩ := Option.isSome_iff_exists.mp (hsome b (by simp))
      have hge : jsGe (dateOf dv a.pubDate) (dateOf dv b.pubDate) = true := by
        rw [hda, hdb]
        have hnlt : ¬ (da < db) := by
          intro hlt
          have : sortLt dv b a = true :=
            (sortLt_char dv b a).mpr ⟨da, db, hda, hdb, hlt⟩
          simp [hba] at this
        simp only [jsGe, decide_eq_true_eq]
        omega
      have htail : sortedByDateDesc dv (b :: r) = true :=
        ih (fun x hx => hsome x (by simp [List.mem_cons] at hx ⊢; tauto)) hrest
      show (jsGe (dateOf dv a.pubDate) (dateOf dv b.pubDate) &&
        sortedByDateDesc dv (b :: r)) = true
      rw [hge, htail]
      rfl

theorem any_take_false {α : Type} {p : α → Bool} (l : List α) (n : Nat)
    (h : l.any p = false) : (l.take n).any p = false := by
  by_contra hc
  rw [Bool.not_eq_false, List.any_eq_true] at hc
  obtain ⟨x, hx, hpx⟩ := hc
  have hxl : x ∈ l := List.take_subset n l hx
  have : l.any p = true := List.any_eq_true.mpr ⟨x, hxl, hpx⟩
  rw [h] at this
  cases this

theorem hasTag_false_of_no_gt :
    ∀ l : List Char, l.any (fun d => d == '>') = false → hasTag l = false := by
  intro l
  induction l with
  | nil => intro _; rfl
  | cons c rest ih =>
    intro h
    simp only [List.any_cons, Bool.or_eq_false_iff] at h
    unfold hasTag
    rw [ih h.2, h.2]
    simp

theorem hasTag_of_span :
    ∀ (pre rest : List Char), '>' ∈ rest → hasTag (pre ++ '<' :: rest) = true := by
  intro pre
  induction pre with
  | nil =>
    intro rest h
    simp only [List.nil_append]
    unfold hasTag
    have : rest.any (fun d => d == '>') = true := by
      rw [List.any_eq_true]
      exact ⟨'>', h, by simp⟩
    simp [this]
  | cons c p ih =>
    intro rest h
    simp only [List.cons_append]
    unfold hasTag
    rw [ih rest h]
    simp

theorem hasTag_take :
    ∀ (l : List Char) (n : Nat), hasTag l = false → hasTag (l.take n) = false := by
  intro l
  induction l with
  | nil => intro n _; simp [List.take_nil]; rfl
  | cons c rest ih =>
    intro n h
    unfold hasTag at h
    rw [Bool.or_eq_false_iff] at h
    cases n with
    | zero => rfl
    | succ m =>
      rw [List.take_succ_cons]
      unfold hasTag
      rw [Bool.or_eq_false_iff]
      refine ⟨?_, ih m h.2⟩
      by_cases hc : (c == '<') = true
      · rw [hc] at h ⊢
        rw [Bool.true_and] at h ⊢
        exact any_take_false rest m h.1
      · rw [Bool.not_eq_true] at hc
        rw [hc]
        simp

theorem hasTag_stripTagsGo :
    ∀ (l : List Char) (st : Option (List Char)),
      (∀ p, st = some p → p.any (fun d => d == '>') = false) →
      hasTag (stripTagsGo l st) = false := by
  intro l
  induction l with
  | nil =>
    intro st hst
    cases st with
    | none => rfl
    | some pend =>
      have hp := hst pend rfl
      show hasTag pend.reverse = false
      apply hasTag_false_of_no_gt
      by_contra hc
      rw [Bool.not_eq_false, List.any_eq_true] at hc
      obtain ⟨x, hx, hpx⟩ := hc
      rw [List.mem_reverse] at hx
      have : pend.any (fun d => d == '>') = true := List.any_eq_true.mpr ⟨x, hx, hpx⟩
      rw [hp] at this
      cases this
  | cons c rest ih =>
    intro st hst
    cases st with
    | none =>
      show hasTag (if c = '<' then stripTagsGo rest (some [c])
        else c :: stripTagsGo rest none) = false
      by_cases hc : c = '<'
      · rw [if_pos hc]
        apply ih
        intro p hp
        injection hp with hp2
        rw [← hp2, hc]
        rfl
      · rw [if_neg hc]
        unfold hasTag
        rw [Bool.or_eq_false_iff]
        refine ⟨?_, ih none (by intro p hp; cases hp)⟩
        have : (c == '<') = false := by
          rw [beq_eq_false_iff_ne]
          exact hc
        rw [this]
        simp
    | some pend =>
      show hasTag (if c = '>' then stripTagsGo rest none
        else stripTagsGo rest (some (c :: pend))) = false
      by_cases hc : c = '>'
      · rw [if_pos hc]
        exact ih none (by intro p hp; cases hp)
      · rw [if_neg hc]
        apply ih
        intro p hp
        injection hp with hp2
        rw [← hp2]
        rw [List.any_cons]
        have h1 : (c == '>') = false := by
          rw [beq_eq_false_iff_ne]
          exact hc
        rw [h1, hst pend rfl]
        rfl

theorem hasTagStr_stripTags (s : String) : hasTagStr (stripTags s) = false :=
  hasTag_stripTagsGo s.data none (by intro p hp; cases hp)

theorem coerceToArray_eq_single {v : JSValue} (hne : ∀ xs, v ≠ .arr xs) :
    coerceToArray v = [v] := by
  cases v <;> first
    | rfl
    | exact absurd rfl (hne _)

theorem jsOr_str_isNullish (a : JSValue) (s : String) :
    (jsOr a (.str s)).isNullish = false :=
  jsOr_isNullish_false a rfl

/-! ### Claim theorems -/

/-- Claim C1. Evaluation of the normalizer at the entry-dialect scenario
node (no title, link parsed to an object with an `@_href` field, author
object with name "Bob"): the title and creator resolve as the claim says,
but the link field of the produced record is the raw link OBJECT, not the
string "http://x". In `item.link || item.link?.['@_href']` the left
operand, being an object, is always truthy, so the nested-href fallback
is unreachable (when `item.link` is falsy the fallback is necessarily
`undefined` too): the dialect-specific alternate location is never
consulted for title or link, contradicting the claimed resolution order
and the claimed normalized link. -/
theorem normalizeItem_entry_href_eval :
    normalizeItem "2025-01-01T00:00:00.000Z"
        (.obj [("link", .obj [("@_href", .str "http://x")]),
               ("author", .obj [("name", .str "Bob")])])
      = .ok { title := .str "No title",
              link := .obj [("@_href", .str "http://x")],
              pubDate := .str "2025-01-01T00:00:00.000Z",
              content := .str "",
              contentSnippet := .str "",
              creator := .str "Bob" }
    ∧ (resolvedLink (.obj [("link", .obj [("@_href", .str "http://x")]),
               ("author", .obj [("name", .str "Bob")])])).isStr = false :=
  ⟨rfl, rfl⟩

/-- Claim C2, counterexample: a node whose title parsed to the number 5
(as `fast-xml-parser` produces for `<title>5</title>`) normalizes
successfully, but the resulting title field is the number 5, not a
string — the "every field is a string" half of the claim is false (the
"present, non-null, non-undefined" half does hold, see the amended
theorem). -/
theorem normalizeItem_nonstring_field :
    (normalizeItem "T" (.obj [("title", .num 5)])).map (fun n => n.title.isStr)
        = .ok false
    ∧ (normalizeItem "T" (.obj [("title", .num 5)])).map NewsItem.allFieldsDefined
        = .ok true :=
  ⟨rfl, rfl⟩

/-- Claim C2, amended: every field of every record the normalizer
produces is present and non-nullish (never `undefined` or `null` — each
resolution chain ends in a defined default), but the fields are not in
general strings: a truthy non-string source value passes through
unchanged. -/
theorem normalizeItem_fields_defined (now : String) (item : JSValue)
    (n : NewsItem) (h : normalizeItem now item = .ok n) :
    n.allFieldsDefined = true := by
  obtain ⟨-, s, -, rfl⟩ := normalizeItem_ok_elim h
  simp only [NewsItem.allFieldsDefined, resolvedTitle, resolvedLink,
    resolvedPubDate, resolvedCreator, jsOr_str_isNullish]
  rfl

/-- Witness for the amended C2 theorem at the empty node. -/
theorem normalizeItem_fields_defined_witness :
    NewsItem.allFieldsDefined
      { title := .str "No title", link := .str "", pubDate := .str "T",
        content := .str "", contentSnippet := .str "",
        creator := .str "Unknown" } = true :=
  normalizeItem_fields_defined "T" (.obj []) _ rfl

/-- Claim C3. Aggregation is total (it is a plain function into lists:
the per-feed try/catch absorbs every per-source throw) and a source that
fails at the fetch or parse stage contributes zero items without
affecting the others: dropping all failed sources leaves the result
unchanged, and in particular three sources of which the second rejects
(e.g. with HTTP 500) aggregate to exactly what the first and third alone
aggregate to. -/
theorem fetchRSSFeeds_isolates_failures (now : String)
    (dateVal : String → Option Int) (outcomes : List FeedOutcome)
    (o1 o3 : FeedOutcome) (m : String) :
    fetchRSSFeeds now dateVal outcomes
      = fetchRSSFeeds now dateVal (outcomes.filter (fun o => !o.isFailure))
    ∧ fetchRSSFeeds now dateVal [o1, .fetchError m, o3]
      = fetchRSSFeeds now dateVal [o1, o3]
    ∧ processFeed now (.fetchError m) = []
    ∧ processFeed now (.parseError m) = [] := by
  refine ⟨?_, ?_, rfl, rfl⟩
  · unfold fetchRSSFeeds
    rw [flatten_map_filter (fun o => !o.isFailure) (processFeed now)
      (by intro o ho
          cases o <;> simp_all [processFeed, FeedOutcome.isFailure]) outcomes]
  · unfold fetchRSSFeeds
    simp [processFeed]

/-- Claim C4. Every record the normalizer produces has a string content
and its snippet is exactly that content with every `<...>` span stripped
and then hard-truncated to the first 120 characters; consequently the
snippet is at most 120 characters long and contains no `<` that is
followed by a later `>` (hence no `<...>` tag span). -/
theorem normalizeItem_snippet_spec (now : String) (item : JSValue)
    (n : NewsItem) (h : normalizeItem now item = .ok n) :
    ∃ c : String, n.content = .str c ∧
      n.contentSnippet = .str (jsSubstring (stripTags c) 120) ∧
      (jsSubstring (stripTags c) 120).length ≤ 120 ∧
      hasTagStr (jsSubstring (stripTags c) 120) = false := by
  obtain ⟨-, s, -, rfl⟩ := normalizeItem_ok_elim h
  refine ⟨s, rfl, rfl, ?_, ?_⟩
  · show ((stripTags s).data.take 120).length ≤ 120
    rw [List.length_take]
    omega
  · show hasTag ((stripTags s).data.take 120) = false
    exact hasTag_take (stripTags s).data 120 (hasTagStr_stripTags s)

set_option maxRecDepth 8000 in
/-- Witness for C4 at the scenario node: the description
`"<b>Hi</b>" + "x".repeat(200)` yields the snippet
`"Hi" + "x".repeat(118)` (strip first, then truncate to 120). -/
theorem normalizeItem_snippet_spec_witness :
    (∃ c : String, newsHi.content = .str c ∧
      newsHi.contentSnippet = .str (jsSubstring (stripTags c) 120) ∧
      (jsSubstring (stripTags c) 120).length ≤ 120 ∧
      hasTagStr (jsSubstring (stripTags c) 120) = false)
    ∧ jsSubstring (stripTags descHi) 120 = "Hi" ++ xs118 :=
  ⟨normalizeItem_snippet_spec "T" itemHi newsHi (by rfl), by rfl⟩

/-- Claim C5, counterexample: with one source whose first item has an
unparseable `pubDate` and whose second has a valid one, the aggregated
output keeps the invalid-date item first (the comparator returns NaN
against it, which orders nothing), so the output has an adjacent pair
with `timestamp(a) >= timestamp(b)` false (a NaN timestamp compares
false), refuting "sorted descending ... including for items whose
pubDate string is not parseable". -/
theorem fetchRSSFeeds_unparseable_unsorted :
    sortedByDateDesc dvDemo (fetchRSSFeeds "T" dvDemo [.parsed docUnsorted]) = false
    ∧ (fetchRSSFeeds "T" dvDemo [.parsed docUnsorted]).length = 2 :=
  ⟨rfl, rfl⟩

/-- Claim C5, amended: whenever every aggregated item has a parseable
`pubDate` (a valid date under the date parser), the aggregated feed is
sorted descending by timestamp — every adjacent pair satisfies
`timestamp(a) >= timestamp(b)`. Items with unparseable dates compare as
NaN (no required order), so for them the output order is
input-dependent, not sorted. -/
theorem fetchRSSFeeds_sorted_of_parseable (now : String)
    (dateVal : String → Option Int) (outcomes : List FeedOutcome)
    (h : ∀ x ∈ (outcomes.map (processFeed now)).flatten,
      (dateOf dateVal x.pubDate).isSome = true) :
    sortedByDateDesc dateVal (fetchRSSFeeds now dateVal outcomes) = true := by
  unfold fetchRSSFeeds
  apply sortedByDateDesc_of_pairwise
  · intro x hx
    exact h x (mem_sortItems.mp hx)
  · exact pairwise_sortItems dateVal _

/-- Witness for the amended C5 theorem on a concrete dated source. -/
theorem fetchRSSFeeds_sorted_of_parseable_witness :
    sortedByDateDesc dvDemo (fetchRSSFeeds "W" dvDemo [.parsed docSingleDated]) = true :=
  fetchRSSFeeds_sorted_of_parseable "W" dvDemo [.parsed docSingleDated] (by decide)

/-- Claim C6, counterexample: a node whose description parsed to the
number 42 (as `fast-xml-parser` produces for `<description>42</description>`)
makes normalization throw: `(item.description || item.summary || '')`
resolves to the truthy number 42, and `.replace` is not a function of a
number. Normalization is therefore not total on parser-produced nodes. -/
theorem normalizeItem_numeric_description_throws :
    normalizeItem "T" (.obj [("description", .num 42)])
      = .error "TypeError: replace is not a function" :=
  rfl

/-- Claim C6, amended: normalization never throws on any non-nullish
node whose resolved content (`item.description || item.summary || ''`)
is a string — in particular whenever description and summary are absent,
falsy, or plain strings; absence of data resolves to the documented
defaults. It throws exactly when the resolved content is a truthy
non-string (a number or nested object). -/
theorem normalizeItem_total_on_string_content (now : String) (item : JSValue)
    (h1 : item.isNullish = false) (h2 : (resolvedContent item).isStr = true) :
    ∃ n, normalizeItem now item = .ok n := by
  obtain ⟨s, hs⟩ := isStr_exists h2
  refine ⟨NewsItem.mk (resolvedTitle item) (resolvedLink item)
    (resolvedPubDate now item) (.str s)
    (.str (jsSubstring (stripTags s) 120)) (resolvedCreator item), ?_⟩
  unfold normalizeItem
  rw [h1, hs]
  rfl

/-- Witness for the amended C6 theorem at a node with only a title. -/
theorem normalizeItem_total_on_string_content_witness :
    ∃ n, normalizeItem "T" (.obj [("title", .str "A")]) = .ok n :=
  normalizeItem_total_on_string_content "T" (.obj [("title", .str "A")]) rfl rfl

/-- Claim C7. The fetcher resolves with the raw body exactly when the
status is 2xx; on a non-2xx status it rejects with the descriptive
`HTTP <status>: <body>` error, and on a transport error it rejects with
that error. -/
theorem httpsRequest_result_spec (r : HttpResponse) (m : String) :
    (httpsRequest (.response r) = .ok r.body ↔
      (200 ≤ r.statusCode ∧ r.statusCode < 300))
    ∧ (¬ (200 ≤ r.statusCode ∧ r.statusCode < 300) →
        httpsRequest (.response r)
          = .error ("HTTP " ++ toString r.statusCode ++ ": " ++ r.body))
    ∧ httpsRequest (.failure m) = .error m := by
  have he : httpsRequest (.response r)
      = if 200 ≤ r.statusCode ∧ r.statusCode < 300 then .ok r.body
        else .error ("HTTP " ++ toString r.statusCode ++ ": " ++ r.body) := rfl
  refine ⟨⟨?_, ?_⟩, ?_, rfl⟩
  · intro h
    by_cases hc : 200 ≤ r.statusCode ∧ r.statusCode < 300
    · exact hc
    · rw [he, if_neg hc] at h
      cases h
  · intro hc
    rw [he, if_pos hc]
  · intro hc
    rw [he, if_neg hc]

/-- Witness for C7 at a 500 response. -/
theorem httpsRequest_result_spec_witness :
    httpsRequest (.response ⟨500, "oops"⟩)
      = .error ("HTTP " ++ toString (500 : Nat) ++ ": " ++ "oops") :=
  (httpsRequest_result_spec ⟨500, "oops"⟩ "x").2.1 (by decide)

/-- Claim C8. Aggregating zero sources yields the empty feed, and
whenever aggregation yields zero items (zero sources or all sources
failing) the orchestrator returns successfully without invoking the
digest (OpenAI) or delivery (Telegram) collaborator. -/
theorem mainRun_empty_short_circuit (now : String)
    (dateVal : String → Option Int) (outcomes : List FeedOutcome)
    (ai : List NewsItem → Except String String)
    (tg : String → Except String String)
    (h : fetchRSSFeeds now dateVal outcomes = []) :
    fetchRSSFeeds now dateVal [] = []
    ∧ mainRun (fetchRSSFeeds now dateVal outcomes) ai tg
        = ⟨false, false, .success⟩ := by
  refine ⟨rfl, ?_⟩
  rw [h]
  rfl

/-- Witness for C8: a run whose only source failed aggregates to zero
items and stops before both collaborators. -/
theorem mainRun_empty_short_circuit_witness :
    mainRun (fetchRSSFeeds "T" dvDemo [.fetchError "HTTP 500: down"]) aiStub tgStub
      = ⟨false, false, .success⟩ :=
  (mainRun_empty_short_circuit "T" dvDemo [.fetchError "HTTP 500: down"]
    aiStub tgStub rfl).2

/-- Claim C9. Dialect detection and item-count normalization: a document
exposing neither shape yields zero items (not an error — extraction is
total); an item-dialect document whose `item` field is an array of N
items yields exactly those N items; a single scalar item is coerced to a
one-element sequence; and the normalization map preserves the count
whenever it completes. -/
theorem extractItems_shape_spec (doc : JSValue) (now : String) :
    ((rssChannelItem doc).truthy = false → (feedEntry doc).truthy = false →
      extractItems doc = [])
    ∧ (∀ l, rssChannelItem doc = .arr l → extractItems doc = l)
    ∧ (∀ v, rssChannelItem doc = v → v.truthy = true →
        (∀ xs, v ≠ .arr xs) → extractItems doc = [v])
    ∧ (∀ ns, mapExcept (normalizeItem now) (extractItems doc) = .ok ns →
        ns.length = (extractItems doc).length) := by
  refine ⟨?_, ?_, ?_, ?_⟩
  · intro h1 h2
    unfold extractItems
    rw [h1, h2]
    rfl
  · intro l hl
    unfold extractItems
    rw [hl]
    rfl
  · intro v hv htr hne
    unfold extractItems
    rw [hv, htr, coerceToArray_eq_single hne]
    rfl
  · intro ns h
    exact mapExcept_ok_length h

/-- Witness for C9: the empty document yields zero items, a two-item
array yields its two items and the normalizer output over them has
length two, and a scalar item is coerced to a one-element sequence. -/
theorem extractItems_shape_spec_witness :
    extractItems (.obj []) = []
    ∧ extractItems docTwoItems
        = [.obj [("title", .str "A")], .obj [("title", .str "B")]]
    ∧ extractItems docScalarItem = [.str "solo"]
    ∧ [newsA, newsB].length = (extractItems docTwoItems).length := by
  refine ⟨?_, ?_, ?_, ?_⟩
  · exact (extractItems_shape_spec (.obj []) "T").1 rfl rfl
  · exact (extractItems_shape_spec docTwoItems "T").2.1 _ rfl
  · exact (extractItems_shape_spec docScalarItem "T").2.2.1 (.str "solo") rfl rfl
      (by intro xs h; cases h)
  · exact (extractItems_shape_spec docTwoItems "T").2.2.2 [newsA, newsB] rfl

/-- Claim C10. Dialect precedence: whenever `rss.channel.item` is
truthy, extraction uses it (coerced to an array) — the `feed.entry`
branch is never consulted, so a document exposing both shapes
contributes only its item-dialect items. -/
theorem extractItems_item_dialect_precedence (doc : JSValue)
    (h : (rssChannelItem doc).truthy = true) :
    extractItems doc = coerceToArray (rssChannelItem doc) := by
  unfold extractItems
  rw [h]
  rfl

/-- Witness for C10 at a document exposing both shapes: only the
item-dialect scalar is used; the entry is ignored. -/
theorem extractItems_item_dialect_precedence_witness :
    extractItems docBothShapes = [.str "I"] :=
  extractItems_item_dialect_precedence docBothShapes rfl

end NewsBot
